import Mathlib

/-!
Verification of the personality-analyzer pipeline (src/app.py).

The program's data model is a Python dict from trait name to integer score,
built in insertion order.  We embed it as an association list
`TraitVector = List (String × Nat)`: the list order is the dict's iteration
(insertion) order, and `dictGet` is dict lookup (first matching key).
Python f-strings such as `f"You are {value}% ..."` are embedded as explicit
string concatenations.
-/

/-- A Python dict from trait name to score, in iteration (insertion) order. -/
abbrev TraitVector := List (String × Nat)

/-- Python dict lookup `tv[k]` / `tv.get(k)`: value of the first pair with key `k`. -/
def dictGet (tv : TraitVector) (k : String) : Option Nat :=
  (tv.find? (fun p => p.1 = k)).map (fun p => p.2)

/-- The fixed trait set, in the insertion order used by `predict_personality`. -/
def fiveTraits : List String :=
  ["Openness", "Conscientiousness", "Extraversion", "Agreeableness", "Neuroticism"]

/-- A TraitVector over the fixed five-trait set: keys are exactly the five
traits (no duplicates, in some order). -/
def validTV (tv : TraitVector) : Prop :=
  (tv.map Prod.fst).Nodup ∧ (∀ p ∈ tv, p.1 ∈ fiveTraits) ∧
    (∀ k ∈ fiveTraits, k ∈ tv.map Prod.fst)

instance (tv : TraitVector) : Decidable (validTV tv) := by
  unfold validTV; infer_instance

/-- `predict_personality`: the dummy model returns this fixed TraitVector
(for every input text). -/
def predict_personality : TraitVector :=
  [("Openness", 70), ("Conscientiousness", 65), ("Extraversion", 55),
   ("Agreeableness", 80), ("Neuroticism", 35)]

/-- `map_to_mbti(traits)`: four dict lookups and threshold comparisons at 50,
concatenated in axis order E/I, N/S, F/T, J/P.  A missing key is Python's
`KeyError`, embedded as `none`. -/
def map_to_mbti (traits : TraitVector) : Option String := do
  let e ← dictGet traits "Extraversion"
  let o ← dictGet traits "Openness"
  let a ← dictGet traits "Agreeableness"
  let c ← dictGet traits "Conscientiousness"
  return (if e > 50 then "E" else "I") ++ ((if o > 50 then "N" else "S") ++
    ((if a > 50 then "F" else "T") ++ (if c > 50 then "J" else "P")))

/-- The 16 MBTI codes, the key set of the `mbti_stats` table. -/
def mbtiCodes : List String :=
  ["INFJ", "ENFJ", "INTJ", "ENTJ", "INFP", "ENFP", "ISTJ", "ESTJ",
   "ISFJ", "ESFJ", "ISTP", "ESTP", "ISFP", "ESFP", "INTP", "ENTP"]

/-- Python's `max(traits, key=traits.get)` folds over the entries keeping the
current maximum and replacing it only on a strictly greater value, so the
first entry attaining the maximum wins. -/
def pyMaxAux (q : String × Nat) : List (String × Nat) → String × Nat
  | [] => q
  | p :: l => pyMaxAux (if p.2 > q.2 then p else q) l

/-- `max(traits, key=traits.get)`: `none` on an empty dict (Python `ValueError`). -/
def dominant_trait : TraitVector → Option String
  | [] => none
  | p :: l => some (pyMaxAux p l).1

/-- `suggest_roles(traits)`: role table keyed by the dominant trait; the
Neuroticism branch additionally tests `traits["Neuroticism"] < 40`. -/
def suggest_roles (traits : TraitVector) : Option (List String) := do
  let d ← dominant_trait traits
  if d = "Openness" then
    pure ["Graphic Designer", "Writer", "Product Designer", "Innovation Strategist"]
  else if d = "Conscientiousness" then
    pure ["Project Manager", "Data Analyst", "Quality Assurance", "Accountant"]
  else if d = "Extraversion" then
    pure ["Sales Executive", "HR Manager", "Public Relations Officer", "Event Coordinator"]
  else if d = "Agreeableness" then
    pure ["Teacher", "Psychologist", "Nurse", "Social Worker"]
  else if d = "Neuroticism" then do
    let n ← dictGet traits "Neuroticism"
    if n < 40 then pure ["Researcher", "Doctor", "Engineer", "Software Developer"]
    else pure ["Consultant", "Generalist", "Content Creator"]
  else
    pure ["Consultant", "Generalist", "Content Creator"]

/-- The role table of `suggest_roles` as a function of the dominant trait
(and, for Neuroticism, of its score). -/
def roleListFor (t : String) (nScore : Option Nat) : Option (List String) :=
  if t = "Openness" then
    some ["Graphic Designer", "Writer", "Product Designer", "Innovation Strategist"]
  else if t = "Conscientiousness" then
    some ["Project Manager", "Data Analyst", "Quality Assurance", "Accountant"]
  else if t = "Extraversion" then
    some ["Sales Executive", "HR Manager", "Public Relations Officer", "Event Coordinator"]
  else if t = "Agreeableness" then
    some ["Teacher", "Psychologist", "Nurse", "Social Worker"]
  else if t = "Neuroticism" then
    nScore.map (fun n =>
      if n < 40 then ["Researcher", "Doctor", "Engineer", "Software Developer"]
      else ["Consultant", "Generalist", "Content Creator"])
  else
    some ["Consultant", "Generalist", "Content Creator"]

/-- All role lists that `suggest_roles` can return. -/
def allRoleLists : List (List String) :=
  [["Graphic Designer", "Writer", "Product Designer", "Innovation Strategist"],
   ["Project Manager", "Data Analyst", "Quality Assurance", "Accountant"],
   ["Sales Executive", "HR Manager", "Public Relations Officer", "Event Coordinator"],
   ["Teacher", "Psychologist", "Nurse", "Social Worker"],
   ["Researcher", "Doctor", "Engineer", "Software Developer"],
   ["Consultant", "Generalist", "Content Creator"]]

/-- The English template table of `generate_explanations`: the body of each
`if trait == ...` branch, with the f-string written as concatenation.
`none` means no branch matched (the local `msg` is left unassigned). -/
def englishTemplate (trait : String) (value : Nat) : Option String :=
  if trait = "Openness" then
    some ("You are " ++ toString value ++ "% open to new experiences.")
  else if trait = "Conscientiousness" then
    some ("You show " ++ toString value ++ "% responsibility and discipline.")
  else if trait = "Extraversion" then
    some ("You exhibit " ++ toString value ++ "% sociability.")
  else if trait = "Agreeableness" then
    some ("You reflect " ++ toString value ++ "% kindness and cooperation.")
  else if trait = "Neuroticism" then
    some ("You have " ++ toString value ++ "% emotional instability.")
  else none

/-- The Hindi template table (the `else` branch of the language test). -/
def hindiTemplate (trait : String) (value : Nat) : Option String :=
  if trait = "Openness" then
    some ("आप नई चीज़ों के लिए " ++ toString value ++ "% खुले विचारों वाले हैं।")
  else if trait = "Conscientiousness" then
    some ("आप " ++ toString value ++ "% जिम्मेदार और अनुशासित हैं।")
  else if trait = "Extraversion" then
    some ("आप " ++ toString value ++ "% मिलनसार हैं।")
  else if trait = "Agreeableness" then
    some ("आप " ++ toString value ++ "% दयालु और सहयोगी हैं।")
  else if trait = "Neuroticism" then
    some ("आपमें " ++ toString value ++ "% भावनात्मक चञ्चालता है।")
  else none

/-- Template selection: `if lang == "English"` picks the English table, any
other language value falls into the Hindi `else` branch. -/
def templateFor (lang trait : String) (value : Nat) : Option String :=
  if lang = "English" then englishTemplate trait value else hindiTemplate trait value

/-- The loop body of `generate_explanations`.  The accumulator `msg` is the
Python local variable `msg`: it survives from one iteration to the next, so a
trait with no matching branch appends the previous iteration's message, and if
no message was ever assigned Python raises `UnboundLocalError`, embedded as
`Except.error`. -/
def genExpAux (lang : String) (msg : Option String) :
    List (String × Nat) → Except String (List String)
  | [] => Except.ok []
  | (trait, value) :: rest =>
    let newMsg := match templateFor lang trait value with
      | some m => some m
      | none => msg
    match newMsg with
    | none => Except.error "UnboundLocalError: local variable msg referenced before assignment"
    | some m =>
      match genExpAux lang (some m) rest with
      | Except.ok l => Except.ok (m :: l)
      | Except.error e => Except.error e

/-- `generate_explanations(traits, lang)`. -/
def generate_explanations (traits : TraitVector) (lang : String) :
    Except String (List String) :=
  genExpAux lang none traits

/-- `.encode('latin-1', 'ignore').decode('latin-1')`: drop every character
whose code point latin-1 cannot represent (above 255). -/
def sanitizeLatin1 (s : String) : String :=
  String.mk (s.data.filter (fun c => c.toNat ≤ 255))

/-- `generate_pdf_report`: the text lines placed into the PDF, in the order of
the `pdf.cell` / `pdf.multi_cell` calls, paired with the output path
`f"{name}_personality_report.pdf"`.  `now` is the rendered
`datetime.now().strftime('%d %B %Y')` string; `percent` the looked-up
population share rendered as text.  The name, date, trait, MBTI and heading
lines are written as-is; only the explanation, role and quote lines pass
through the latin-1 sanitization. -/
def generate_pdf_report (name now : String) (traits : TraitVector)
    (explanations roles quotes : List String) (mbti percent famous : String) :
    List String × String :=
  (["Personality Mix Analyzer Report",
    "Name: " ++ name,
    "Date: " ++ now]
   ++ traits.map (fun p => p.1 ++ ": " ++ toString p.2 ++ "%")
   ++ ["MBTI Personality: " ++ mbti,
       "Global Population: " ++ percent ++ "%",
       "Famous Personality: " ++ famous,
       "Trait Explanations:"]
   ++ explanations.map sanitizeLatin1
   ++ ["Suggested Roles:"]
   ++ roles.map (fun r => "- " ++ sanitizeLatin1 r)
   ++ ["Tips & Quotes:"]
   ++ quotes.map (fun q => "- " ++ sanitizeLatin1 q),
   name ++ "_personality_report.pdf")

-- History store (save_result and the history display)

/-- One history row: name, timestamp, and the five scores, rendered to the
CSV line that `df.to_csv` appends. -/
structure HistoryRecord where
  name : String
  date : String
  traits : TraitVector

/-- The CSV data line for one record. -/
def renderRow (r : HistoryRecord) : String :=
  r.name ++ "," ++ r.date ++ String.join (r.traits.map (fun p => "," ++ toString p.2))

/-- The header line `to_csv` writes for a fresh file. -/
def headerLine : String :=
  "Name,Date" ++ String.join (fiveTraits.map (fun k => "," ++ k))

/-- The state of `history.csv`: missing, or a list of lines. -/
inductive HFile where
  | missing : HFile
  | file : List String → HFile
deriving DecidableEq

/-- `save_result`: if `history.csv` exists, append the row without a header;
otherwise create the file with the header line and the row. -/
def save_result (r : HistoryRecord) : HFile → HFile
  | HFile.missing => HFile.file [headerLine, renderRow r]
  | HFile.file lines => HFile.file (lines ++ [renderRow r])

/-- The history display path: `pd.read_csv` takes the first line as header and
returns the data rows in file order, which `st.dataframe` shows unchanged. -/
def read_history : HFile → List String
  | HFile.missing => []
  | HFile.file lines => lines.drop 1

/-- Appending a list of records in order, starting from a given file state. -/
def saveAll (s : HFile) (rs : List HistoryRecord) : HFile :=
  rs.foldl (fun s r => save_result r s) s

-- Basic lemmas about the embedded dict and Python max

theorem dictGet_of_mem_keys {tv : TraitVector} {k : String}
    (h : k ∈ tv.map Prod.fst) : ∃ v, dictGet tv k = some v := by
  induction tv with
  | nil => simp at h
  | cons p l ih =>
    by_cases hp : p.1 = k
    · exact ⟨p.2, by simp [dictGet, List.find?, hp]⟩
    · have h2 : k ∈ l.map Prod.fst := by
        rcases List.mem_cons.mp h with h1 | h1
        · exact absurd h1.symm hp
        · exact h1
      rcases ih h2 with ⟨v, hv⟩
      exact ⟨v, by simpa [dictGet, List.find?, hp] using hv⟩

theorem dictGet_of_mem_nodup {tv : TraitVector} {k : String} {v : Nat}
    (hmem : (k, v) ∈ tv) (hnd : (tv.map Prod.fst).Nodup) :
    dictGet tv k = some v := by
  induction tv with
  | nil => simp at hmem
  | cons p l ih =>
    simp only [List.map_cons, List.nodup_cons] at hnd
    rcases List.mem_cons.mp hmem with h | h
    · subst h; simp [dictGet, List.find?]
    · have hne : ¬ p.1 = k := by
        intro he
        exact hnd.1 (he ▸ (List.mem_map.mpr ⟨(k, v), h, rfl⟩))
      simpa [dictGet, List.find?, hne] using ih h hnd.2

theorem pyMaxAux_mem (q : String × Nat) (l : List (String × Nat)) :
    pyMaxAux q l ∈ q :: l := by
  induction l generalizing q with
  | nil => simp [pyMaxAux]
  | cons p l ih =>
    simp only [pyMaxAux]
    by_cases h : p.2 > q.2
    · simp only [if_pos h]
      rcases List.mem_cons.mp (ih p) with h1 | h1
      · simp [h1]
      · simp [List.mem_cons, h1]
    · simp only [if_neg h]
      rcases List.mem_cons.mp (ih q) with h1 | h1
      · simp [h1]
      · simp [List.mem_cons, h1]

theorem pyMaxAux_of_le (q : String × Nat) (l : List (String × Nat))
    (h : ∀ p ∈ l, p.2 ≤ q.2) : pyMaxAux q l = q := by
  induction l with
  | nil => rfl
  | cons p l ih =>
    have hp : p.2 ≤ q.2 := h p (by simp)
    have : ¬ p.2 > q.2 := not_lt.mpr hp
    simp only [pyMaxAux, if_neg this]
    exact ih (fun r hr => h r (by simp [hr]))

theorem pyMaxAux_first_max (q : String × Nat) (t : String) (s : Nat)
    (l₁ l₂ : List (String × Nat)) (hq : q.2 < s)
    (h₁ : ∀ p ∈ l₁, p.2 < s) (h₂ : ∀ p ∈ l₂, p.2 ≤ s) :
    pyMaxAux q (l₁ ++ (t, s) :: l₂) = (t, s) := by
  induction l₁ generalizing q with
  | nil =>
    simp only [List.nil_append, pyMaxAux, if_pos (show s > q.2 from hq)]
    exact pyMaxAux_of_le _ _ h₂
  | cons p l ih =>
    simp only [List.cons_append, pyMaxAux]
    by_cases h : p.2 > q.2
    · simp only [if_pos h]
      exact ih p (h₁ p (by simp)) (fun r hr => h₁ r (by simp [hr]))
    · simp only [if_neg h]
      exact ih q hq (fun r hr => h₁ r (by simp [hr]))

theorem dominant_trait_first_max (l₁ l₂ : List (String × Nat)) (t : String) (s : Nat)
    (h₁ : ∀ p ∈ l₁, p.2 < s) (h₂ : ∀ p ∈ l₂, p.2 ≤ s) :
    dominant_trait (l₁ ++ (t, s) :: l₂) = some t := by
  cases l₁ with
  | nil =>
    simp only [List.nil_append, dominant_trait]
    rw [pyMaxAux_of_le _ _ h₂]
  | cons p l =>
    simp only [List.cons_append, dominant_trait]
    rw [pyMaxAux_first_max p t s l l₂ (h₁ p (by simp))
      (fun r hr => h₁ r (by simp [hr])) h₂]

theorem suggest_roles_eq (tv : TraitVector) :
    suggest_roles tv = (dominant_trait tv).bind
      (fun d => roleListFor d (dictGet tv "Neuroticism")) := by
  cases htv : dominant_trait tv with
  | none => simp [suggest_roles, htv]
  | some d =>
    simp only [suggest_roles, htv, Option.bind_eq_bind, Option.some_bind,
      Option.pure_def, roleListFor]
    split_ifs <;> (try rfl) <;> cases dictGet tv "Neuroticism" <;>
      simp [apply_ite]

theorem mbti_letter_mem (e o a c : Nat) :
    ((if e > 50 then "E" else "I") ++ ((if o > 50 then "N" else "S") ++
      ((if a > 50 then "F" else "T") ++ (if c > 50 then "J" else "P")))) ∈ mbtiCodes := by
  by_cases he : e > 50 <;> by_cases ho : o > 50 <;> by_cases ha : a > 50 <;>
    by_cases hc : c > 50 <;> simp only [he, ho, ha, hc, if_true, if_false] <;> decide

/-- Claim C1: for every TraitVector containing the five fixed traits,
`map_to_mbti` returns the concatenation, in axis order E/I, N/S, F/T, J/P, of
'E' iff Extraversion > 50 else 'I', 'N' iff Openness > 50 else 'S', 'F' iff
Agreeableness > 50 else 'T', 'J' iff Conscientiousness > 50 else 'P' (a score
of exactly 50 takes the second letter); the output lies in the fixed 16-code
set and depends only on those four scores. -/
theorem C1_map_to_mbti (tv : TraitVector) (e o a c : Nat)
    (he : dictGet tv "Extraversion" = some e) (ho : dictGet tv "Openness" = some o)
    (ha : dictGet tv "Agreeableness" = some a) (hc : dictGet tv "Conscientiousness" = some c) :
    map_to_mbti tv = some ((if e > 50 then "E" else "I") ++ ((if o > 50 then "N" else "S") ++
      ((if a > 50 then "F" else "T") ++ (if c > 50 then "J" else "P")))) ∧
    (∃ code ∈ mbtiCodes, map_to_mbti tv = some code) ∧
    (∀ tv2 : TraitVector, dictGet tv2 "Extraversion" = some e →
      dictGet tv2 "Openness" = some o → dictGet tv2 "Agreeableness" = some a →
      dictGet tv2 "Conscientiousness" = some c → map_to_mbti tv2 = map_to_mbti tv) := by
  have h1 : map_to_mbti tv = some ((if e > 50 then "E" else "I") ++
      ((if o > 50 then "N" else "S") ++
      ((if a > 50 then "F" else "T") ++ (if c > 50 then "J" else "P")))) := by
    simp [map_to_mbti, he, ho, ha, hc]
  refine ⟨h1, ⟨_, mbti_letter_mem e o a c, h1⟩, ?_⟩
  intro tv2 he2 ho2 ha2 hc2
  rw [h1]
  simp [map_to_mbti, he2, ho2, ha2, hc2]

/-- Witness for C1 at the TraitVector the dummy model produces
(Extraversion 55, Openness 70, Agreeableness 80, Conscientiousness 65). -/
theorem C1_map_to_mbti_witness :
    map_to_mbti predict_personality = some ((if 55 > 50 then "E" else "I") ++
      ((if 70 > 50 then "N" else "S") ++
      ((if 80 > 50 then "F" else "T") ++ (if 65 > 50 then "J" else "P")))) ∧
    (∃ code ∈ mbtiCodes, map_to_mbti predict_personality = some code) ∧
    (∀ tv2 : TraitVector, dictGet tv2 "Extraversion" = some 55 →
      dictGet tv2 "Openness" = some 70 → dictGet tv2 "Agreeableness" = some 80 →
      dictGet tv2 "Conscientiousness" = some 65 →
      map_to_mbti tv2 = map_to_mbti predict_personality) :=
  C1_map_to_mbti predict_personality 55 70 80 65 (by decide) (by decide)
    (by decide) (by decide)

/-- Claim C2 counterexample: on the fixed scores the pipeline produces, the
MBTI code is "ENFJ" (Extraversion 55 > 50 gives 'E', Openness 70 > 50 gives
'N', Agreeableness 80 > 50 gives 'F', Conscientiousness 65 > 50 gives 'J'),
not the claimed "ISFJ". -/
theorem C2_counterexample :
    map_to_mbti predict_personality = some "ENFJ" ∧
    ("ENFJ" : String) ≠ "ISFJ" := by
  exact ⟨by decide, by decide⟩

/-- Claim C2 (amended): for the fixed input TraitVector {Openness 70,
Conscientiousness 65, Extraversion 55, Agreeableness 80, Neuroticism 35} the
pipeline yields MBTI code "ENFJ", dominant trait "Agreeableness", and role
list ["Teacher", "Psychologist", "Nurse", "Social Worker"]. -/
theorem C2_amended_pipeline :
    map_to_mbti predict_personality = some "ENFJ" ∧
    dominant_trait predict_personality = some "Agreeableness" ∧
    suggest_roles predict_personality =
      some ["Teacher", "Psychologist", "Nurse", "Social Worker"] := by
  refine ⟨by decide, by decide, by decide⟩

/-- A TraitVector whose unique maximum is a low Neuroticism score. -/
def lowNeuroticismTV : TraitVector :=
  [("Openness", 10), ("Conscientiousness", 12), ("Extraversion", 14),
   ("Agreeableness", 16), ("Neuroticism", 30)]

/-- Claim C3: for every TraitVector over the fixed trait set, `suggest_roles`
returns a non-empty role list from the fixed table; and when Neuroticism is
the unique maximum, a strictly-below-40 score yields one fixed list and a
score of 40 or above yields a different fixed list. -/
theorem C3_suggest_roles (tv : TraitVector) (h : validTV tv) :
    (∃ l, suggest_roles tv = some l ∧ l ≠ [] ∧ l ∈ allRoleLists) ∧
    (∀ n : Nat, ("Neuroticism", n) ∈ tv →
      (∀ p ∈ tv, p.1 ≠ "Neuroticism" → p.2 < n) →
      suggest_roles tv =
        some (if n < 40 then ["Researcher", "Doctor", "Engineer", "Software Developer"]
          else ["Consultant", "Generalist", "Content Creator"])) ∧
    (["Researcher", "Doctor", "Engineer", "Software Developer"] ≠
      (["Consultant", "Generalist", "Content Creator"] : List String)) := by
  obtain ⟨hnd, hsub, hsup⟩ := h
  refine ⟨?_, ?_, by decide⟩
  · -- a non-empty list from the fixed table always comes back
    obtain ⟨q, l, rfl⟩ : ∃ q l, tv = q :: l := by
      cases tv with
      | nil =>
        have := hsup "Openness" (by simp [fiveTraits])
        simp at this
      | cons q l => exact ⟨q, l, rfl⟩
    have hdom : dominant_trait (q :: l) = some (pyMaxAux q l).1 := rfl
    have hdf : (pyMaxAux q l).1 ∈ fiveTraits := hsub _ (pyMaxAux_mem q l)
    rw [suggest_roles_eq, hdom, Option.some_bind]
    simp only [fiveTraits, List.mem_cons, List.not_mem_nil, or_false] at hdf
    rcases hdf with hd | hd | hd | hd | hd <;> rw [hd]
    · exact ⟨_, rfl, by decide, by decide⟩
    · exact ⟨_, rfl, by decide, by decide⟩
    · exact ⟨_, rfl, by decide, by decide⟩
    · exact ⟨_, rfl, by decide, by decide⟩
    · obtain ⟨n, hn⟩ := dictGet_of_mem_keys (hsup "Neuroticism" (by simp [fiveTraits]))
      rw [hn]
      refine ⟨if n < 40 then ["Researcher", "Doctor", "Engineer", "Software Developer"]
        else ["Consultant", "Generalist", "Content Creator"], rfl, ?_, ?_⟩
      · split <;> decide
      · split <;> decide
  · -- the Neuroticism-dominant branch
    intro n hmemN hmax
    obtain ⟨l₁, l₂, rfl⟩ := List.append_of_mem hmemN
    have hkeys : (l₁.map Prod.fst ++ "Neuroticism" :: l₂.map Prod.fst).Nodup := by
      simpa using hnd
    have hnotL1 : "Neuroticism" ∉ l₁.map Prod.fst := by
      intro hc
      exact (List.nodup_append.mp hkeys).2.2 hc (by simp)
    have hnotL2 : "Neuroticism" ∉ l₂.map Prod.fst := by
      have := (List.nodup_append.mp hkeys).2.1
      simp only [List.nodup_cons] at this
      exact this.1
    have h₁ : ∀ p ∈ l₁, p.2 < n := by
      intro p hp
      refine hmax p (by simp [hp]) ?_
      intro he
      exact hnotL1 (he ▸ List.mem_map.mpr ⟨p, hp, rfl⟩)
    have h₂ : ∀ p ∈ l₂, p.2 ≤ n := by
      intro p hp
      refine le_of_lt (hmax p (by simp [hp]) ?_)
      intro he
      exact hnotL2 (he ▸ List.mem_map.mpr ⟨p, hp, rfl⟩)
    have hdom := dominant_trait_first_max l₁ l₂ "Neuroticism" n h₁ h₂
    have hget : dictGet (l₁ ++ ("Neuroticism", n) :: l₂) "Neuroticism" = some n :=
      dictGet_of_mem_nodup hmemN hnd
    rw [suggest_roles_eq, hdom, Option.some_bind, hget]
    rfl

/-- Witness for C3: the unique maximum of `lowNeuroticismTV` is Neuroticism
at score 30 < 40, giving the low-score role list. -/
theorem C3_suggest_roles_witness :
    suggest_roles lowNeuroticismTV =
      some (if 30 < 40 then ["Researcher", "Doctor", "Engineer", "Software Developer"]
        else ["Consultant", "Generalist", "Content Creator"]) :=
  (C3_suggest_roles lowNeuroticismTV (by decide)).2.1 30 (by decide) (by decide)

/-- Claim C4: when two or more traits tie for the maximum score, the first
tied trait in the dict's iteration order is selected as dominant, and
`suggest_roles` returns that trait's role list. -/
theorem C4_tie_break (l₁ l₂ : TraitVector) (t : String) (s : Nat)
    (h₁ : ∀ p ∈ l₁, p.2 < s) (h₂ : ∀ p ∈ l₂, p.2 ≤ s)
    (htie : ∃ p ∈ l₂, p.2 = s) :
    dominant_trait (l₁ ++ (t, s) :: l₂) = some t ∧
    suggest_roles (l₁ ++ (t, s) :: l₂) =
      roleListFor t (dictGet (l₁ ++ (t, s) :: l₂) "Neuroticism") := by
  have hd := dominant_trait_first_max l₁ l₂ t s h₁ h₂
  exact ⟨hd, by rw [suggest_roles_eq, hd, Option.some_bind]⟩

/-- Witness for C4: Openness and Conscientiousness tie at 80; the first in
iteration order, Openness, wins and its role list is returned. -/
theorem C4_tie_break_witness :
    dominant_trait [("Openness", 80), ("Conscientiousness", 80), ("Extraversion", 10),
      ("Agreeableness", 10), ("Neuroticism", 10)] = some "Openness" ∧
    suggest_roles [("Openness", 80), ("Conscientiousness", 80), ("Extraversion", 10),
      ("Agreeableness", 10), ("Neuroticism", 10)] =
      roleListFor "Openness" (dictGet [("Openness", 80), ("Conscientiousness", 80),
        ("Extraversion", 10), ("Agreeableness", 10), ("Neuroticism", 10)] "Neuroticism") :=
  C4_tie_break [] [("Conscientiousness", 80), ("Extraversion", 10),
    ("Agreeableness", 10), ("Neuroticism", 10)] "Openness" 80 (by decide) (by decide)
    ⟨("Conscientiousness", 80), by decide, rfl⟩

theorem templateFor_split (lang trait : String) (value : Nat)
    (h : trait ∈ fiveTraits) :
    ∃ pre post, templateFor lang trait value =
      some ((pre ++ toString value) ++ ("%" ++ post)) := by
  simp only [fiveTraits, List.mem_cons, List.not_mem_nil, or_false] at h
  by_cases hl : lang = "English" <;>
    rcases h with rfl | rfl | rfl | rfl | rfl <;>
    simp only [templateFor, if_pos, if_neg, hl, if_true, if_false]
  · exact ⟨"You are ", " open to new experiences.", rfl⟩
  · exact ⟨"You show ", " responsibility and discipline.", rfl⟩
  · exact ⟨"You exhibit ", " sociability.", rfl⟩
  · exact ⟨"You reflect ", " kindness and cooperation.", rfl⟩
  · exact ⟨"You have ", " emotional instability.", rfl⟩
  · exact ⟨"आप नई चीज़ों के लिए ", " खुले विचारों वाले हैं।", rfl⟩
  · exact ⟨"आप ", " जिम्मेदार और अनुशासित हैं।", rfl⟩
  · exact ⟨"आप ", " मिलनसार हैं।", rfl⟩
  · exact ⟨"आप ", " दयालु और सहयोगी हैं।", rfl⟩
  · exact ⟨"आपमें ", " भावनात्मक चञ्चालता है।", rfl⟩

theorem genExpAux_spec (lang : String) (tv : TraitVector) (msg : Option String)
    (hkeys : ∀ p ∈ tv, p.1 ∈ fiveTraits) :
    ∃ msgs, genExpAux lang msg tv = Except.ok msgs ∧ msgs.length = tv.length ∧
      ∀ pm ∈ tv.zip msgs, ∃ pre post,
        pm.2 = (pre ++ toString pm.1.2) ++ ("%" ++ post) := by
  induction tv generalizing msg with
  | nil => exact ⟨[], rfl, rfl, by simp⟩
  | cons p rest ih =>
    obtain ⟨t, v⟩ := p
    obtain ⟨pre, post, htm⟩ := templateFor_split lang t v (hkeys (t, v) (by simp))
    obtain ⟨msgs, hok, hlen, hzip⟩ :=
      ih (some ((pre ++ toString v) ++ ("%" ++ post)))
        (fun q hq => hkeys q (by simp [hq]))
    refine ⟨((pre ++ toString v) ++ ("%" ++ post)) :: msgs, ?_, by simp [hlen], ?_⟩
    · simp only [genExpAux, htm, hok]
    · intro pm hpm
      rw [List.zip_cons_cons] at hpm
      rcases List.mem_cons.mp hpm with hpm | hpm
      · subst hpm
        exact ⟨pre, post, rfl⟩
      · exact hzip pm hpm

/-- Claim C5: for every TraitVector over the fixed five traits and each
supported language, `generate_explanations` returns one sentence per trait in
iteration order (length equals the TraitVector size), and the sentence paired
with each trait contains that trait's score rendered as text immediately
followed by a literal "%". -/
theorem C5_generate_explanations (tv : TraitVector) (lang : String)
    (hkeys : ∀ p ∈ tv, p.1 ∈ fiveTraits)
    (hlang : lang = "English" ∨ lang = "Hindi") :
    ∃ msgs, generate_explanations tv lang = Except.ok msgs ∧
      msgs.length = tv.length ∧
      ∀ pm ∈ tv.zip msgs, ∃ pre post,
        pm.2 = (pre ++ toString pm.1.2) ++ ("%" ++ post) :=
  genExpAux_spec lang tv none hkeys

/-- Witness for C5 at the dummy model's TraitVector in English. -/
theorem C5_generate_explanations_witness :
    ∃ msgs, generate_explanations predict_personality "English" = Except.ok msgs ∧
      msgs.length = predict_personality.length ∧
      ∀ pm ∈ predict_personality.zip msgs, ∃ pre post,
        pm.2 = (pre ++ toString pm.1.2) ++ ("%" ++ post) :=
  C5_generate_explanations predict_personality "English" (by decide) (Or.inl rfl)

/-- Claim C9 (code bug): `generate_explanations` does not signal an explicit
error for every unknown trait name.  When an unknown trait follows a known
one, the stale `msg` from the previous iteration is silently appended again
(here: two copies of the Openness sentence); only when the unknown trait comes
first does Python raise `UnboundLocalError`. -/
theorem C9_unknown_trait_stale :
    generate_explanations [("Openness", 70), ("Charisma", 50)] "English" =
      Except.ok ["You are 70% open to new experiences.",
        "You are 70% open to new experiences."] ∧
    generate_explanations [("Charisma", 50)] "English" =
      Except.error "UnboundLocalError: local variable msg referenced before assignment" := by
  exact ⟨rfl, rfl⟩

/-- Claim C10: any language value other than exactly "English" selects the
Hindi templates; the language argument is never validated. -/
theorem C10_language_fallback (lang : String) (h : lang ≠ "English")
    (tv : TraitVector) :
    generate_explanations tv lang = generate_explanations tv "Hindi" := by
  have haux : ∀ (l : List (String × Nat)) (msg : Option String),
      genExpAux lang msg l = genExpAux "Hindi" msg l := by
    intro l
    induction l with
    | nil => intro msg; rfl
    | cons p rest ih =>
      intro msg
      obtain ⟨t, v⟩ := p
      have ht : templateFor lang t v = templateFor "Hindi" t v := by
        simp only [templateFor, if_neg h, if_neg (by decide : ¬ ("Hindi" = "English"))]
      cases htm : templateFor "Hindi" t v with
      | none =>
        cases msg with
        | none => simp [genExpAux, ht, htm]
        | some m => simp [genExpAux, ht, htm, ih]
      | some m => simp [genExpAux, ht, htm, ih]
  exact haux tv none

/-- Witness for C10 at the unexpected language value "French". -/
theorem C10_language_fallback_witness :
    generate_explanations predict_personality "French" =
      generate_explanations predict_personality "Hindi" :=
  C10_language_fallback "French" (by decide) predict_personality

/-- Two concrete history records used in the history-store theorems. -/
def histRecA : HistoryRecord :=
  ⟨"Asha", "2025-05-01 10:00:00", predict_personality⟩

def histRecB : HistoryRecord :=
  ⟨"Ravi", "2025-05-02 11:30:00", predict_personality⟩

theorem saveAll_file (lines : List String) (rs : List HistoryRecord) :
    saveAll (HFile.file lines) rs = HFile.file (lines ++ rs.map renderRow) := by
  induction rs generalizing lines with
  | nil => simp [saveAll]
  | cons r rest ih =>
    simp only [saveAll, List.foldl_cons, save_result] at *
    rw [ih (lines ++ [renderRow r])]
    simp

/-- Claim C6 counterexample: after appending record A then record B to a
fresh store, the history display returns the rows oldest-first (append
order), not in the claimed reverse-chronological (most-recent-first) order. -/
theorem C6_counterexample :
    read_history (saveAll HFile.missing [histRecA, histRecB]) =
      [renderRow histRecA, renderRow histRecB] ∧
    renderRow histRecA ≠ renderRow histRecB ∧
    read_history (saveAll HFile.missing [histRecA, histRecB]) ≠
      [renderRow histRecB, renderRow histRecA] := by
  refine ⟨rfl, by decide, by decide⟩

/-- Claim C6 (amended): after appending N records to a fresh store the file
holds exactly one header line followed by the N data rows, in chronological
(append) order, and later appends never repeat the header; reading returns
exactly those N records, oldest first. -/
theorem C6_history_store (rs : List HistoryRecord) (h : rs ≠ []) :
    saveAll HFile.missing rs = HFile.file (headerLine :: rs.map renderRow) ∧
    read_history (saveAll HFile.missing rs) = rs.map renderRow := by
  obtain ⟨r, rest, rfl⟩ : ∃ r rest, rs = r :: rest := by
    cases rs with
    | nil => exact absurd rfl h
    | cons r rest => exact ⟨r, rest, rfl⟩
  have hfile : saveAll HFile.missing (r :: rest) =
      HFile.file (headerLine :: (r :: rest).map renderRow) := by
    have h1 : saveAll HFile.missing (r :: rest) =
        saveAll (HFile.file [headerLine, renderRow r]) rest := rfl
    rw [h1, saveAll_file]
    simp
  exact ⟨hfile, by rw [hfile]; rfl⟩

/-- Witness for C6 with two concrete records. -/
theorem C6_history_store_witness :
    saveAll HFile.missing [histRecA, histRecB] =
      HFile.file (headerLine :: [histRecA, histRecB].map renderRow) ∧
    read_history (saveAll HFile.missing [histRecA, histRecB]) =
      [histRecA, histRecB].map renderRow :=
  C6_history_store [histRecA, histRecB] (List.cons_ne_nil _ _)

/-- Claim C7 counterexample: the report path depends only on the name, not on
any timestamp — two submissions for the same name on different dates produce
the identical path, so the second run overwrites the first report. -/
theorem C7_counterexample :
    (generate_pdf_report "Asha" "01 May 2025" predict_personality [] [] []
      "ENFJ" "2.5" "Barack Obama").2 =
    (generate_pdf_report "Asha" "02 May 2025" predict_personality [] [] []
      "ENFJ" "2.5" "Barack Obama").2 ∧
    ("01 May 2025" : String) ≠ "02 May 2025" :=
  ⟨rfl, by decide⟩

/-- Claim C7 (amended): the report path is derived from the user-supplied name
only — always `name + "_personality_report.pdf"` — so it always ends in
".pdf" and distinct names never collide, but a repeated submission for the
same name reuses the same path regardless of the timestamp. -/
theorem C7_report_path (name now : String) (traits : TraitVector)
    (explanations roles quotes : List String) (mbti percent famous : String) :
    (generate_pdf_report name now traits explanations roles quotes
      mbti percent famous).2 = name ++ "_personality_report.pdf" ∧
    (∃ stem, (generate_pdf_report name now traits explanations roles quotes
      mbti percent famous).2 = stem ++ ".pdf") ∧
    (∀ name2 now2 : String, name ≠ name2 →
      (generate_pdf_report name now traits explanations roles quotes
        mbti percent famous).2 ≠
      (generate_pdf_report name2 now2 traits explanations roles quotes
        mbti percent famous).2) ∧
    (∀ now2 : String,
      (generate_pdf_report name now traits explanations roles quotes
        mbti percent famous).2 =
      (generate_pdf_report name now2 traits explanations roles quotes
        mbti percent famous).2) := by
  refine ⟨rfl, ⟨name ++ "_personality_report", ?_⟩, ?_, fun now2 => rfl⟩
  · show name ++ "_personality_report.pdf" = (name ++ "_personality_report") ++ ".pdf"
    rw [String.append_assoc]
    exact congrArg (fun s => name ++ s) (by decide)
  · intro name2 now2 hne heq
    apply hne
    have hdata : name.data ++ "_personality_report.pdf".data =
        name2.data ++ "_personality_report.pdf".data := by
      have h2 : (name ++ "_personality_report.pdf").data =
          (name2 ++ "_personality_report.pdf").data := by
        exact congrArg String.data heq
      simpa [String.data_append] using h2
    exact String.ext (List.append_cancel_right hdata)

/-- Witness for C7 at two concrete distinct names. -/
theorem C7_report_path_witness :
    (generate_pdf_report "Asha" "01 May 2025" predict_personality [] [] []
      "ENFJ" "2.5" "Barack Obama").2 ≠
    (generate_pdf_report "Ravi" "02 May 2025" predict_personality [] [] []
      "ENFJ" "2.5" "Barack Obama").2 :=
  (C7_report_path "Asha" "01 May 2025" predict_personality [] [] []
    "ENFJ" "2.5" "Barack Obama").2.2.1 "Ravi" "02 May 2025" (by decide)

/-- A string latin-1 can encode: every character's code point is at most 255. -/
def latin1Safe (s : String) : Prop :=
  ∀ c ∈ s.data, c.toNat ≤ 255

instance (s : String) : Decidable (latin1Safe s) := by
  unfold latin1Safe; infer_instance

theorem latin1Safe_append {a b : String} (ha : latin1Safe a) (hb : latin1Safe b) :
    latin1Safe (a ++ b) := by
  intro c hc
  rw [String.data_append] at hc
  rcases List.mem_append.mp hc with h | h
  · exact ha c h
  · exact hb c h

theorem digitChar_le (n : Nat) : (Nat.digitChar n).toNat ≤ 255 := by
  match n with
  | 0 => decide
  | 1 => decide
  | 2 => decide
  | 3 => decide
  | 4 => decide
  | 5 => decide
  | 6 => decide
  | 7 => decide
  | 8 => decide
  | 9 => decide
  | 10 => decide
  | 11 => decide
  | 12 => decide
  | 13 => decide
  | 14 => decide
  | 15 => decide
  | m + 16 =>
    unfold Nat.digitChar
    repeat rw [if_neg (by omega)]
    decide

theorem toDigitsCore_le (b : Nat) (f : Nat) :
    ∀ (n : Nat) (acc : List Char), (∀ c ∈ acc, c.toNat ≤ 255) →
      ∀ c ∈ Nat.toDigitsCore b f n acc, c.toNat ≤ 255 := by
  induction f with
  | zero => exact fun n acc hacc c hc => hacc c hc
  | succ f ih =>
    intro n acc hacc c hc
    simp only [Nat.toDigitsCore] at hc
    split at hc
    · rcases List.mem_cons.mp hc with h | h
      · exact h ▸ digitChar_le (n % b)
      · exact hacc c h
    · refine ih (n / b) (Nat.digitChar (n % b) :: acc) ?_ c hc
      intro d hd
      rcases List.mem_cons.mp hd with h | h
      · exact h ▸ digitChar_le (n % b)
      · exact hacc d h

theorem latin1Safe_toString_nat (n : Nat) : latin1Safe (toString n) := by
  intro c hc
  have hc2 : c ∈ Nat.toDigits 10 n := by
    simpa [toString, Nat.repr, List.asString, Nat.toDigits] using hc
  exact toDigitsCore_le 10 (n + 1) n [] (by simp) c hc2

theorem latin1Safe_sanitize (s : String) : latin1Safe (sanitizeLatin1 s) := by
  intro c hc
  have : c ∈ s.data.filter (fun c => c.toNat ≤ 255) := hc
  exact of_decide_eq_true (List.mem_filter.mp this).2

/-- Claim C8 counterexample: the name field is placed into the PDF without
sanitization, so a name containing a character latin-1 cannot represent (here
the Devanagari letter "अ", code point 2309) reaches the renderer, where
fpdf's latin-1 encoding of the line fails. -/
theorem C8_counterexample :
    ¬ (∀ line ∈ (generate_pdf_report "अ" "01 May 2025" predict_personality
        [] [] [] "ENFJ" "2.5" "Barack Obama").1,
        ∀ c ∈ line.data, c.toNat ≤ 255) := by
  decide

/-- Claim C8 (amended): the explanation, role and tip/quote fields are
sanitized to latin-1 before rendering — for arbitrary values of those inputs
no rendered line contains a character above code point 255, provided the
remaining fields (name, date, trait names, MBTI metadata), which the code
does NOT sanitize, are themselves latin-1-representable.  The name field in
particular is written unsanitized. -/
theorem C8_sanitization (name now : String) (traits : TraitVector)
    (explanations roles quotes : List String) (mbti percent famous : String)
    (hname : latin1Safe name) (hnow : latin1Safe now)
    (htraits : ∀ p ∈ traits, latin1Safe p.1)
    (hmbti : latin1Safe mbti) (hpercent : latin1Safe percent)
    (hfamous : latin1Safe famous) :
    ∀ line ∈ (generate_pdf_report name now traits explanations roles quotes
      mbti percent famous).1, latin1Safe line := by
  have happA : ∀ x ∈ ["Personality Mix Analyzer Report", "Name: " ++ name,
      "Date: " ++ now], latin1Safe x := by
    intro x hx
    rcases List.mem_cons.mp hx with rfl | hx
    · decide
    rcases List.mem_cons.mp hx with rfl | hx
    · exact latin1Safe_append (by decide) hname
    rcases List.mem_cons.mp hx with rfl | hx
    · exact latin1Safe_append (by decide) hnow
    · exact absurd hx (List.not_mem_nil x)
  have happT : ∀ x ∈ traits.map (fun p => p.1 ++ ": " ++ toString p.2 ++ "%"),
      latin1Safe x := by
    intro x hx
    obtain ⟨p, hp, rfl⟩ := List.mem_map.mp hx
    exact latin1Safe_append (latin1Safe_append (latin1Safe_append (htraits p hp)
      (by decide)) (latin1Safe_toString_nat p.2)) (by decide)
  have happM : ∀ x ∈ ["MBTI Personality: " ++ mbti,
      "Global Population: " ++ percent ++ "%", "Famous Personality: " ++ famous,
      "Trait Explanations:"], latin1Safe x := by
    intro x hx
    rcases List.mem_cons.mp hx with rfl | hx
    · exact latin1Safe_append (by decide) hmbti
    rcases List.mem_cons.mp hx with rfl | hx
    · exact latin1Safe_append (latin1Safe_append (by decide) hpercent) (by decide)
    rcases List.mem_cons.mp hx with rfl | hx
    · exact latin1Safe_append (by decide) hfamous
    rcases List.mem_cons.mp hx with rfl | hx
    · decide
    · exact absurd hx (List.not_mem_nil x)
  have happE : ∀ x ∈ explanations.map sanitizeLatin1, latin1Safe x := by
    intro x hx
    obtain ⟨e, _, rfl⟩ := List.mem_map.mp hx
    exact latin1Safe_sanitize e
  have happR : ∀ x ∈ roles.map (fun r => "- " ++ sanitizeLatin1 r),
      latin1Safe x := by
    intro x hx
    obtain ⟨r, _, rfl⟩ := List.mem_map.mp hx
    exact latin1Safe_append (by decide) (latin1Safe_sanitize r)
  have happQ : ∀ x ∈ quotes.map (fun q => "- " ++ sanitizeLatin1 q),
      latin1Safe x := by
    intro x hx
    obtain ⟨q, _, rfl⟩ := List.mem_map.mp hx
    exact latin1Safe_append (by decide) (latin1Safe_sanitize q)
  intro line hline
  rcases List.mem_append.mp hline with h1 | h1
  · rcases List.mem_append.mp h1 with h2 | h2
    · rcases List.mem_append.mp h2 with h3 | h3
      · rcases List.mem_append.mp h3 with h4 | h4
        · rcases List.mem_append.mp h4 with h5 | h5
          · rcases List.mem_append.mp h5 with h6 | h6
            · rcases List.mem_append.mp h6 with h7 | h7
              · exact happA line h7
              · exact happT line h7
            · exact happM line h6
          · exact happE line h5
        · rcases List.mem_singleton.mp h4 with rfl
          decide
      · exact happR line h3
    · rcases List.mem_singleton.mp h2 with rfl
      decide
  · exact happQ line h1

/-- Witness for C8: with a latin-1 name and metadata but Devanagari
explanation text, every rendered line stays within latin-1. -/
theorem C8_sanitization_witness :
    ((generate_pdf_report "Asha" "01 May 2025" predict_personality
      ["आपमें 35% भावनात्मक चञ्चालता है।"] ["Teacher"]
      ["Stay curious and keep exploring new ideas."] "ENFJ" "2.5"
      "Barack Obama").1.all (fun line => decide (latin1Safe line))) = true := by
  have h := C8_sanitization "Asha" "01 May 2025" predict_personality
    ["आपमें 35% भावनात्मक चञ्चालता है।"] ["Teacher"]
    ["Stay curious and keep exploring new ideas."] "ENFJ" "2.5" "Barack Obama"
    (by decide) (by decide) (by decide) (by decide) (by decide) (by decide)
  rw [List.all_eq_true]
  intro line hline
  exact decide_eq_true (h line hline)
